import Mathlib

/-!
Verification of the ai-chat-relay-server core against its specification.

The development shallowly embeds the rate limiter
(`app/core/rate_limiter.py`), the streaming relay
(`app/api/v1/endpoints/chat.py` and
`app/services/perplexityai_service.py`) and the rate-limiting middleware
(`app/middleware/rate_limiting.py`).  Python floats are modelled as
rationals, wall-clock readings as rational parameters, Redis and the
in-process bucket dictionary as functions from keys to optional states,
and fallible Redis round-trips as `Except Unit` results with an explicit
flag saying whether the backend raises during the call.
-/

namespace Relay

/-- Configuration fields consumed by the rate limiter
(`app/core/config.py`: `RATE_LIMIT_REQUESTS`, `RATE_LIMIT_WINDOW`). -/
structure Settings where
  RATE_LIMIT_REQUESTS : ℕ
  RATE_LIMIT_WINDOW : ℕ
deriving DecidableEq

/-- The `TokenBucket` dataclass of `app/core/rate_limiter.py`. -/
structure TokenBucket where
  capacity : ℚ
  refill_rate : ℚ
  tokens : ℚ
  last_refill : ℚ
deriving DecidableEq

/-- The refill expression shared by `_redis_rate_limit` (lines 63-68) and
`_memory_rate_limit` (lines 102-106):
`min(capacity, tokens + (now - last_refill) * refill_rate)`. -/
def refillTokens (cap rate tokens last now : ℚ) : ℚ :=
  min cap (tokens + (now - last) * rate)

/-- One admission check on an existing bucket, the body of
`_memory_rate_limit` after the bucket has been fetched or created
(lines 101-114): refill, stamp `last_refill`, then serve the request if
the refreshed tokens cover it. -/
def memoryRateLimitBucket (b : TokenBucket) (requests now : ℚ) :
    Bool × TokenBucket :=
  let t := refillTokens b.capacity b.refill_rate b.tokens b.last_refill now
  if requests ≤ t then
    (true, { b with tokens := t - requests, last_refill := now })
  else
    (false, { b with tokens := t, last_refill := now })

/-- The bucket lazily created on first observation of a key
(`_memory_rate_limit` lines 91-97). -/
def freshBucket (s : Settings) (now : ℚ) : TokenBucket :=
  { capacity := (s.RATE_LIMIT_REQUESTS : ℚ)
    refill_rate := (s.RATE_LIMIT_REQUESTS : ℚ) / (s.RATE_LIMIT_WINDOW : ℚ)
    tokens := (s.RATE_LIMIT_REQUESTS : ℚ)
    last_refill := now }

/-- `_memory_rate_limit` (lines 87-114): fetch or create the bucket for
`key`, run the check, store the updated bucket back in `local_buckets`.
The Python code mutates the bucket in place on both branches, so the
refreshed state is persisted whether or not the request is admitted. -/
def memory_rate_limit (s : Settings) (store : String → Option TokenBucket)
    (key : String) (requests now : ℚ) :
    Bool × (String → Option TokenBucket) :=
  let b := (store key).getD (freshBucket s now)
  let res := memoryRateLimitBucket b requests now
  (res.1, fun k => if k = key then some res.2 else store k)

/-- State of the Redis hash `bucket:<key>` as the limiter reads and
writes it: the `tokens` and `last_refill` fields. -/
def RedisStore : Type := String → Option (ℚ × ℚ)

/-- `_redis_rate_limit` (lines 47-85).  `failing` models the shared
backend raising during the call (at `hgetall` or in the pipeline); the
Python function has no handler, so the exception escapes, modelled as
`Except.error ()`.  On admission the pipeline writes the new `tokens`
and `last_refill`; on rejection the function returns `False` without
touching Redis. -/
def redis_rate_limit (s : Settings) (redis : RedisStore) (failing : Bool)
    (key : String) (requests now : ℚ) :
    Except Unit (Bool × RedisStore) :=
  if failing then Except.error () else
  let p := (redis ("bucket:" ++ key)).getD ((s.RATE_LIMIT_REQUESTS : ℚ), now)
  let t := refillTokens (s.RATE_LIMIT_REQUESTS : ℚ)
      ((s.RATE_LIMIT_REQUESTS : ℚ) / (s.RATE_LIMIT_WINDOW : ℚ)) p.1 p.2 now
  if requests ≤ t then
    Except.ok (true,
      fun k => if k = "bucket:" ++ key then some (t - requests, now) else redis k)
  else
    Except.ok (false, redis)

/-- The `RateLimiter` instance state: `redis_connected` is the truthiness
of `self.redis_client` (set to `None` when the startup probe fails,
lines 31-38), `redis` the shared store contents, `local_buckets` the
in-process fallback dictionary. -/
structure LimiterState where
  redis_connected : Bool
  redis : RedisStore
  local_buckets : String → Option TokenBucket

/-- `RateLimiter.is_allowed` (lines 40-45): dispatch on `redis_client`
with no exception handling, so a Redis failure propagates. -/
def is_allowed (s : Settings) (st : LimiterState) (redisFailing : Bool)
    (key : String) (requests now : ℚ) :
    Except Unit (Bool × LimiterState) :=
  if st.redis_connected then
    match redis_rate_limit s st.redis redisFailing key requests now with
    | Except.error e => Except.error e
    | Except.ok res => Except.ok (res.1, { st with redis := res.2 })
  else
    let res := memory_rate_limit s st.local_buckets key requests now
    Except.ok (res.1, { st with local_buckets := res.2 })

/-- A sequence of `_memory_rate_limit` checks for one key: each list
entry is `(now, cost)` in call order.  Returns the admission decisions
and the final store. -/
def runChecks (s : Settings) (key : String) :
    List (ℚ × ℚ) → (String → Option TokenBucket) →
    List Bool × (String → Option TokenBucket)
  | [], store => ([], store)
  | c :: rest, store =>
    let r := memory_rate_limit s store key c.2 c.1
    let tail := runChecks s key rest r.2
    (r.1 :: tail.1, tail.2)

/-- Repeated cost-1 checks on one bucket, all sharing one clock reading
(the "rapid calls" of the spec scenario). -/
def sameTimeChecks (b : TokenBucket) (t : ℚ) : ℕ → List Bool × TokenBucket
  | 0 => ([], b)
  | n + 1 =>
    let r := memoryRateLimitBucket b 1 t
    let rest := sameTimeChecks r.2 t n
    (r.1 :: rest.1, rest.2)

/-- The exact exemption list of `RateLimitMiddleware.__call__`
(`app/middleware/rate_limiting.py` line 29). -/
def exemptPaths : List String :=
  ["/api/v1/health", "/api/v1/auth/login", "/api/v1/auth/register"]

/-- Outcome of the middleware for one HTTP request. -/
inductive MiddlewareResult where
  | forwarded
  | tooManyRequests
deriving DecidableEq

/-- `RateLimitMiddleware.__call__` (lines 21-50) for an HTTP request:
exempt paths are forwarded without consulting the limiter; otherwise the
limiter is checked under key `ip:<host>` (host defaulting to
`"unknown"`) and a rejected check yields the 429 response. -/
def rateLimitMiddleware (s : Settings) (st : LimiterState)
    (redisFailing : Bool) (path : String) (clientHost : Option String)
    (now : ℚ) : Except Unit (MiddlewareResult × LimiterState) :=
  if path ∈ exemptPaths then Except.ok (MiddlewareResult.forwarded, st)
  else
    match is_allowed s st redisFailing ("ip:" ++ clientHost.getD "unknown") 1 now with
    | Except.error e => Except.error e
    | Except.ok res =>
      if res.1 then Except.ok (MiddlewareResult.forwarded, res.2)
      else Except.ok (MiddlewareResult.tooManyRequests, res.2)

/-- The `delta` object of an upstream streaming chunk choice. -/
structure Delta where
  content : Option String
deriving DecidableEq

/-- One choice of an upstream streaming chunk. -/
structure StreamChoice where
  index : ℕ
  delta : Delta
  finish_reason : Option String
deriving DecidableEq

/-- One upstream streaming chunk
(`create_chat_completion_stream`, lines 79-111). -/
structure StreamChunk where
  id : String
  object : String
  created : ℕ
  model : String
  choices : List StreamChoice
deriving DecidableEq

/-- One event yielded by `create_chat_completion_stream`: a content
event carries `delta.content` (`delta_content = some c`), a finish event
carries an empty delta (`delta_content = none`). -/
structure OutEvent where
  id : String
  object : String
  created : ℕ
  model : String
  index : ℕ
  delta_content : Option String
  finish_reason : Option String
deriving DecidableEq

/-- Python truthiness of an optional string
(`if choice.finish_reason:`): `None` and `""` are falsy. -/
def truthyStr : Option String → Bool
  | none => false
  | some s => s != ""

/-- The content event yielded at lines 83-97. -/
def contentEvent (c : StreamChunk) (ch : StreamChoice) : OutEvent :=
  ⟨c.id, c.object, c.created, c.model, ch.index, ch.delta.content, ch.finish_reason⟩

/-- The finish event yielded at lines 99-111 (empty `delta`). -/
def finishEvent (c : StreamChunk) (ch : StreamChoice) : OutEvent :=
  ⟨c.id, c.object, c.created, c.model, ch.index, none, ch.finish_reason⟩

/-- Translation of one upstream chunk (loop body, lines 80-111): only the
first choice is consulted; a content event is yielded when
`choice.delta.content is not None`, and a finish event when
`choice.finish_reason` is truthy. -/
def translateChunk (c : StreamChunk) : List OutEvent :=
  match c.choices with
  | [] => []
  | ch :: _ =>
    (if ch.delta.content.isSome then [contentEvent c ch] else []) ++
    (if truthyStr ch.finish_reason then [finishEvent c ch] else [])

/-- `create_chat_completion_stream` on a fully delivered upstream chunk
sequence: the concatenation of the per-chunk translations. -/
def create_chat_completion_stream (chunks : List StreamChunk) : List OutEvent :=
  (chunks.map translateChunk).flatten

/-- One server-sent frame written by the endpoint generator:
a `data: <event JSON>` frame, the literal `data: [DONE]` sentinel, or
the error frame carrying `error.message` and `error.type`. -/
inductive Frame where
  | data (e : OutEvent)
  | done
  | errorEvent (message errType : String)
deriving DecidableEq

/-- `generate_stream` in `chat.py` (lines 72-85): relay every event the
service delivered, then close with `[DONE]`; if the upstream iteration
raised at any point (after `events` were already relayed), the handler
emits exactly one error frame instead and the generator ends.  The
embedding is a total function, reflecting that no exception escapes the
generator body. -/
def generate_stream (events : List OutEvent) (upstreamError : Bool) :
    List Frame :=
  if upstreamError then
    events.map Frame.data ++ [Frame.errorEvent "Stream error occurred" "server_error"]
  else
    events.map Frame.data ++ [Frame.done]

/-- A terminal frame: the `[DONE]` sentinel or an error frame. -/
def isTerminalFrame : Frame → Bool
  | Frame.data _ => false
  | Frame.done => true
  | Frame.errorEvent _ _ => true

/-- Recognizes the `[DONE]` sentinel. -/
def isDoneFrame : Frame → Bool
  | Frame.done => true
  | _ => false

/-- Recognizes an error frame. -/
def isErrorFrame : Frame → Bool
  | Frame.errorEvent _ _ => true
  | _ => false

/-- A content event (non-empty `delta` object). -/
def isContentEvent (e : OutEvent) : Bool := e.delta_content.isSome

/-- A finish event (empty `delta` object). -/
def isFinishEvent (e : OutEvent) : Bool := e.delta_content.isNone

/-- Parameters of one inbound chat request as the service reads them
(`app/models/chat.py`; `None` marks an unset field). -/
structure ChatRequestParams where
  model : Option String
  temperature : Option ℚ
  max_tokens : Option ℤ
  top_p : Option ℚ
  frequency_penalty : Option ℚ
  presence_penalty : Option ℚ
deriving DecidableEq

/-- Parameters actually sent upstream by
`client.chat.completions.create`. -/
structure UpstreamParams where
  model : String
  temperature : ℚ
  max_tokens : ℤ
  top_p : ℚ
  frequency_penalty : ℚ
  presence_penalty : ℚ
deriving DecidableEq

/-- Python `x or d` on an optional rational: `None` and `0` are falsy. -/
def pyOrQ : Option ℚ → ℚ → ℚ
  | none, d => d
  | some x, d => if x = 0 then d else x

/-- Python `x or d` on an optional integer: `None` and `0` are falsy. -/
def pyOrZ : Option ℤ → ℤ → ℤ
  | none, d => d
  | some n, d => if n = 0 then d else n

/-- Python `x or d` on an optional string: `None` and `""` are falsy. -/
def pyOrS : Option String → String → String
  | none, d => d
  | some s, d => if s = "" then d else s

/-- The argument build shared verbatim by `create_chat_completion`
(lines 29-39) and `create_chat_completion_stream` (lines 68-78) of
`perplexityai_service.py`: each parameter is `request.<field> or
<default>`, with defaults `self.default_model`, `0.7`,
`self.max_tokens`, `1.0`, `0.0`, `0.0`. -/
def buildUpstreamParams (defaultModel : String) (maxTokensSetting : ℤ)
    (r : ChatRequestParams) : UpstreamParams :=
  { model := pyOrS r.model defaultModel
    temperature := pyOrQ r.temperature (7 / 10)
    max_tokens := pyOrZ r.max_tokens maxTokensSetting
    top_p := pyOrQ r.top_p 1
    frequency_penalty := pyOrQ r.frequency_penalty 0
    presence_penalty := pyOrQ r.presence_penalty 0 }

/-- Token bounds of a bucket: `0 ≤ tokens ≤ capacity`. -/
def BucketOk (b : TokenBucket) : Prop :=
  0 ≤ b.tokens ∧ b.tokens ≤ b.capacity

/-- Bucket invariant relative to a clock bound `t`: bounded tokens, a
nonnegative refill rate, and a last-refill stamp not in the future. -/
def BucketInvAt (t : ℚ) (b : TokenBucket) : Prop :=
  BucketOk b ∧ 0 ≤ b.refill_rate ∧ b.last_refill ≤ t

/-- `BucketInvAt` lifted to an optional bucket. -/
def OptInvAt (t : ℚ) (o : Option TokenBucket) : Prop :=
  ∀ b ∈ o, BucketInvAt t b

/-- `BucketOk` lifted to an optional bucket. -/
def OptOk (o : Option TokenBucket) : Prop :=
  ∀ b ∈ o, BucketOk b

/-- Per-check accounting law of `_memory_rate_limit`: the stored tokens
after a check are exactly the refreshed tokens minus the cost when
admitted, and the refreshed tokens themselves when rejected; under the
bucket invariant the refill can only increase the token count. -/
def MemoryStepLaw : Prop :=
  ∀ (b : TokenBucket) (cost now : ℚ), BucketInvAt now b → 0 ≤ cost →
    (memoryRateLimitBucket b cost now).2.tokens
      = refillTokens b.capacity b.refill_rate b.tokens b.last_refill now
        - (if (memoryRateLimitBucket b cost now).1 = true then cost else 0)
    ∧ b.tokens ≤ refillTokens b.capacity b.refill_rate b.tokens b.last_refill now

/-- The empty bucket store (no key observed yet). -/
def emptyStore : String → Option TokenBucket := fun _ => none

/-- A Redis state holding one fully drained bucket for key `u`,
last refilled at time 0. -/
def c1Redis : RedisStore := fun k => if k = "bucket:u" then some (0, 0) else none

/-- Limiter state after a successful startup probe, with empty stores. -/
def connectedState : LimiterState := ⟨true, fun _ => none, fun _ => none⟩

/-- Limiter state after a failed startup probe
(`redis_client = None`), with empty stores. -/
def localState : LimiterState := ⟨false, fun _ => none, fun _ => none⟩

theorem refillTokens_le_cap (cap rate tokens last now : ℚ) :
    refillTokens cap rate tokens last now ≤ cap :=
  min_le_left _ _

theorem refillTokens_nonneg (cap rate tokens last now : ℚ)
    (h0 : 0 ≤ tokens) (hc : tokens ≤ cap) (hr : 0 ≤ rate) (hl : last ≤ now) :
    0 ≤ refillTokens cap rate tokens last now := by
  unfold refillTokens
  refine le_min (h0.trans hc) ?_
  have : 0 ≤ (now - last) * rate := mul_nonneg (by linarith) hr
  linarith

theorem le_refillTokens (cap rate tokens last now : ℚ)
    (hc : tokens ≤ cap) (hr : 0 ≤ rate) (hl : last ≤ now) :
    tokens ≤ refillTokens cap rate tokens last now := by
  unfold refillTokens
  refine le_min hc ?_
  have : 0 ≤ (now - last) * rate := mul_nonneg (by linarith) hr
  linarith

theorem memoryRateLimitBucket_spec (b : TokenBucket) (cost now : ℚ) :
    ((memoryRateLimitBucket b cost now).1 = true
      ↔ cost ≤ refillTokens b.capacity b.refill_rate b.tokens b.last_refill now)
    ∧ (memoryRateLimitBucket b cost now).2.capacity = b.capacity
    ∧ (memoryRateLimitBucket b cost now).2.refill_rate = b.refill_rate
    ∧ (memoryRateLimitBucket b cost now).2.last_refill = now
    ∧ (memoryRateLimitBucket b cost now).2.tokens
        = refillTokens b.capacity b.refill_rate b.tokens b.last_refill now
          - (if (memoryRateLimitBucket b cost now).1 = true then cost else 0) := by
  by_cases h : cost ≤ refillTokens b.capacity b.refill_rate b.tokens b.last_refill now <;>
    simp [memoryRateLimitBucket, h]

theorem memStep_inv (b : TokenBucket) (cost now : ℚ)
    (hb : BucketInvAt now b) (hcost : 0 ≤ cost) :
    BucketInvAt now (memoryRateLimitBucket b cost now).2 := by
  obtain ⟨⟨h0, hc⟩, hr, hl⟩ := hb
  have hle := refillTokens_le_cap b.capacity b.refill_rate b.tokens b.last_refill now
  have hnn := refillTokens_nonneg b.capacity b.refill_rate b.tokens b.last_refill now h0 hc hr hl
  obtain ⟨hadm, hcap, hrate, hlast, htok⟩ := memoryRateLimitBucket_spec b cost now
  refine ⟨⟨?_, ?_⟩, ?_, ?_⟩
  · rw [htok]
    by_cases h : (memoryRateLimitBucket b cost now).1 = true
    · rw [if_pos h]
      have := hadm.mp h
      linarith
    · rw [if_neg h]
      linarith
  · rw [htok, hcap]
    by_cases h : (memoryRateLimitBucket b cost now).1 = true
    · rw [if_pos h]; linarith
    · rw [if_neg h]; linarith
  · rw [hrate]; exact hr
  · rw [hlast]

theorem freshBucket_inv (s : Settings) (now : ℚ) :
    BucketInvAt now (freshBucket s now) := by
  refine ⟨⟨?_, le_refl _⟩, ?_, le_refl _⟩
  · exact Nat.cast_nonneg _
  · exact div_nonneg (Nat.cast_nonneg _) (Nat.cast_nonneg _)

theorem memory_rate_limit_key (s : Settings) (store : String → Option TokenBucket)
    (key : String) (cost now : ℚ) :
    (memory_rate_limit s store key cost now).2 key
      = some (memoryRateLimitBucket ((store key).getD (freshBucket s now)) cost now).2 := by
  simp [memory_rate_limit]

theorem memory_rate_limit_inv (s : Settings) (store : String → Option TokenBucket)
    (key : String) (cost now t₀ : ℚ)
    (ht : t₀ ≤ now) (hcost : 0 ≤ cost) (hinv : OptInvAt t₀ (store key)) :
    OptInvAt now ((memory_rate_limit s store key cost now).2 key) := by
  rw [memory_rate_limit_key]
  intro b hb
  have hb' : (memoryRateLimitBucket ((store key).getD (freshBucket s now)) cost now).2 = b := by
    simpa using hb
  rw [← hb']
  refine memStep_inv _ _ _ ?_ hcost
  cases hsk : store key with
  | none => simpa [hsk] using freshBucket_inv s now
  | some b0 =>
    obtain ⟨hok, hr, hl⟩ := hinv b0 (by simp [hsk])
    exact ⟨hok, hr, by simpa [hsk] using hl.trans ht⟩

theorem runChecks_inv (s : Settings) (key : String) (l : List (ℚ × ℚ)) :
    ∀ (store : String → Option TokenBucket) (t₀ : ℚ),
      List.Chain (· ≤ ·) t₀ (l.map Prod.fst) →
      (∀ p ∈ l, 0 ≤ p.2) →
      OptInvAt t₀ (store key) →
      ∃ t, OptInvAt t ((runChecks s key l store).2 key) := by
  induction l with
  | nil =>
    intro store t₀ _ _ hinv
    exact ⟨t₀, hinv⟩
  | cons c rest ih =>
    intro store t₀ hchain hcost hinv
    rw [List.map_cons, List.chain_cons] at hchain
    have hstep := memory_rate_limit_inv s store key c.2 c.1 t₀ hchain.1
      (hcost c (List.mem_cons_self c rest)) hinv
    have hrec := ih ((memory_rate_limit s store key c.2 c.1).2) c.1 hchain.2
      (fun p hp => hcost p (List.mem_cons_of_mem c hp)) hstep
    simpa [runChecks] using hrec

theorem sameTimeChecks_spec (cap rate t : ℚ) :
    ∀ (n m : ℕ), (m : ℚ) ≤ cap →
      (sameTimeChecks ⟨cap, rate, (m : ℚ), t⟩ t n).1
        = List.replicate (min n m) true ++ List.replicate (n - m) false := by
  intro n
  induction n with
  | zero =>
    intro m _
    simp [sameTimeChecks]
  | succ k ih =>
    intro m hm
    have hrefill : refillTokens cap rate (m : ℚ) t t = (m : ℚ) := by
      unfold refillTokens
      rw [sub_self, zero_mul, add_zero]
      exact min_eq_right hm
    rcases m with _ | j
    · have hnot : ¬ ((1 : ℚ) ≤ refillTokens cap rate ((0 : ℕ) : ℚ) t t) := by
        rw [hrefill]
        norm_num
      have hstep : memoryRateLimitBucket ⟨cap, rate, ((0 : ℕ) : ℚ), t⟩ 1 t
          = (false, ⟨cap, rate, ((0 : ℕ) : ℚ), t⟩) := by
        unfold memoryRateLimitBucket
        dsimp only
        rw [if_neg hnot, hrefill]
      have hrec := ih 0 hm
      simp only [sameTimeChecks]
      rw [hstep, hrec]
      simp [List.replicate_succ]
    · have hone : (1 : ℚ) ≤ ((j + 1 : ℕ) : ℚ) := by
        exact_mod_cast Nat.succ_le_succ (Nat.zero_le j)
      have hstep : memoryRateLimitBucket ⟨cap, rate, ((j + 1 : ℕ) : ℚ), t⟩ 1 t
          = (true, ⟨cap, rate, ((j : ℕ) : ℚ), t⟩) := by
        unfold memoryRateLimitBucket
        dsimp only
        rw [hrefill, if_pos hone]
        have hcast : ((j + 1 : ℕ) : ℚ) - 1 = ((j : ℕ) : ℚ) := by
          push_cast
          ring
        rw [hcast]
      have hj : ((j : ℕ) : ℚ) ≤ cap := by
        refine le_trans ?_ hm
        push_cast
        linarith
      have hrec := ih j hj
      simp only [sameTimeChecks]
      rw [hstep]
      dsimp only
      rw [hrec, Nat.succ_min_succ, Nat.succ_sub_succ, List.replicate_succ,
        List.cons_append]

/-- Claim C4 (counterexample): token bounds do not hold for every check
sequence.  With quota 10 over a 10-second window, five cost-1 checks at
time 100 followed by one check with the clock read 100 seconds earlier
leave the bucket at tokens = -95: the unclamped negative elapsed term
drives the stored tokens below zero. -/
theorem C4_counterexample :
    (runChecks ⟨10, 10⟩ "k"
        [(100, 1), (100, 1), (100, 1), (100, 1), (100, 1), (0, 1)] emptyStore).2 "k"
      = some ⟨10, 1, -95, 0⟩
    ∧ (-95 : ℚ) < 0 := by
  norm_num [runChecks, memory_rate_limit, memoryRateLimitBucket, refillTokens,
    freshBucket, emptyStore, min_def]

/-- Claim C4 (amended): under a monotone clock — every check's own
timestamp at least the previous one, the bucket's stamp not in the
future — and nonnegative costs, the tokens stored for the key after any
sequence of `_memory_rate_limit` checks stay within `[0, capacity]`
(prefixes of a monotone sequence are monotone, so this bounds every
intermediate state as well); and each single check stores exactly the
refreshed tokens minus the cost when admitted and the refreshed tokens
unchanged when rejected, the refill never decreasing the count.  Without
the clock hypothesis the bound fails (see the counterexample). -/
theorem C4_amended (s : Settings) (key : String) (l : List (ℚ × ℚ))
    (store : String → Option TokenBucket) (t₀ : ℚ)
    (hmono : List.Chain (· ≤ ·) t₀ (l.map Prod.fst))
    (hcost : ∀ p ∈ l, 0 ≤ p.2)
    (hinv : OptInvAt t₀ (store key)) :
    OptOk ((runChecks s key l store).2 key) ∧ MemoryStepLaw := by
  constructor
  · obtain ⟨t, ht⟩ := runChecks_inv s key l store t₀ hmono hcost hinv
    intro b hb
    exact (ht b hb).1
  · intro b cost now hb hcost'
    obtain ⟨⟨h0, hc⟩, hr, hl⟩ := hb
    exact ⟨(memoryRateLimitBucket_spec b cost now).2.2.2.2,
      le_refillTokens b.capacity b.refill_rate b.tokens b.last_refill now hc hr hl⟩

/-- Witness for C4_amended at quota 3 / window 60, an empty store and
the monotone check sequence (0,1), (30,1). -/
theorem C4_amended_witness :
    OptOk ((runChecks ⟨3, 60⟩ "k" [(0, 1), (30, 1)] emptyStore).2 "k")
    ∧ MemoryStepLaw :=
  C4_amended ⟨3, 60⟩ "k" [(0, 1), (30, 1)] emptyStore 0
    (by norm_num [List.chain_cons]) (by norm_num) (by simp [OptInvAt, emptyStore])

/-- Claim C7 (counterexample): the code does not clamp a negative
elapsed time.  For a bucket with capacity 10, rate 1, tokens 5 and
last refill at 100, a check at time 0 refreshes tokens to
min(10, 5 + (0-100)*1) = -95 and rejects, instead of the clamped
refresh to 5 (and admission) the claim requires. -/
theorem C7_counterexample :
    memoryRateLimitBucket ⟨10, 1, 5, 100⟩ 1 0 = (false, ⟨10, 1, -95, 0⟩)
    ∧ refillTokens 10 1 5 100 0 = -95
    ∧ (-95 : ℚ) < 0 := by
  norm_num [memoryRateLimitBucket, refillTokens, min_def]

/-- Claim C7 (amended): elapsed time is `now - lastRefillAt` with no
clamp.  When the clock steps backwards (`now < lastRefillAt`) and the
refill rate is positive, the refreshed token count is strictly below
the current tokens — a backwards clock depletes tokens through the
negative elapsed term (possibly below zero) rather than leaving them
unchanged — and the stored tokens are exactly that unclamped refresh
minus the cost if admitted. -/
theorem C7_amended (b : TokenBucket) (cost now : ℚ)
    (hlt : now < b.last_refill) (hr : 0 < b.refill_rate) :
    refillTokens b.capacity b.refill_rate b.tokens b.last_refill now < b.tokens
    ∧ (memoryRateLimitBucket b cost now).2.tokens
        = refillTokens b.capacity b.refill_rate b.tokens b.last_refill now
          - (if (memoryRateLimitBucket b cost now).1 = true then cost else 0) := by
  constructor
  · have hneg : (now - b.last_refill) * b.refill_rate < 0 :=
      mul_neg_of_neg_of_pos (by linarith) hr
    calc refillTokens b.capacity b.refill_rate b.tokens b.last_refill now
        ≤ b.tokens + (now - b.last_refill) * b.refill_rate := min_le_right _ _
      _ < b.tokens := by linarith
  · exact (memoryRateLimitBucket_spec b cost now).2.2.2.2

/-- Witness for C7_amended: bucket capacity 4, rate 2, tokens 3, last
refill 50, checked at time 40. -/
theorem C7_amended_witness :
    refillTokens (4 : ℚ) 2 3 50 40 < 3
    ∧ (memoryRateLimitBucket ⟨4, 2, 3, 50⟩ 1 40).2.tokens
        = refillTokens (4 : ℚ) 2 3 50 40
          - (if (memoryRateLimitBucket ⟨4, 2, 3, 50⟩ 1 40).1 = true then 1 else 0) :=
  C7_amended ⟨4, 2, 3, 50⟩ 1 40 (by norm_num) (by norm_num)

/-- Claim C8 (confirmed): after every check the stored tokens equal the
continuous-refill value `min(capacity, tokens + (now-last)*rate)` minus
the cost exactly when admitted; with rate `capacity / window`, a bucket
idle for at least `window` refills exactly to capacity; and a lazily
created bucket carries rate `RATE_LIMIT_REQUESTS / RATE_LIMIT_WINDOW`. -/
theorem C8_confirmed (s : Settings) (b : TokenBucket)
    (cost now cap window tokens t0 t : ℚ)
    (h0 : 0 ≤ tokens) (hcap : 0 ≤ cap) (hw : 0 < window)
    (hidle : window ≤ t - t0) :
    ((memoryRateLimitBucket b cost now).2.tokens
        = refillTokens b.capacity b.refill_rate b.tokens b.last_refill now
          - (if (memoryRateLimitBucket b cost now).1 = true then cost else 0))
    ∧ refillTokens cap (cap / window) tokens t0 t = cap
    ∧ (freshBucket s now).refill_rate
        = (s.RATE_LIMIT_REQUESTS : ℚ) / (s.RATE_LIMIT_WINDOW : ℚ) := by
  refine ⟨(memoryRateLimitBucket_spec b cost now).2.2.2.2, ?_, rfl⟩
  have hrate : 0 ≤ cap / window := div_nonneg hcap hw.le
  have h1 : window * (cap / window) = cap := by
    field_simp
  have h2 : window * (cap / window) ≤ (t - t0) * (cap / window) :=
    mul_le_mul_of_nonneg_right hidle hrate
  have h3 : cap ≤ tokens + (t - t0) * (cap / window) := by
    rw [h1] at h2
    linarith
  unfold refillTokens
  exact min_eq_left h3

/-- Witness for C8_confirmed: a drained bucket (tokens 0) with quota 3
over a 60-second window, idle from time 0 to time 60, refills exactly
to 3. -/
theorem C8_confirmed_witness :
    ((memoryRateLimitBucket ⟨3, 1 / 20, 2, 0⟩ 1 5).2.tokens
        = refillTokens (3 : ℚ) (1 / 20) 2 0 5
          - (if (memoryRateLimitBucket ⟨3, 1 / 20, 2, 0⟩ 1 5).1 = true then 1 else 0))
    ∧ refillTokens (3 : ℚ) (3 / 60) 0 0 60 = 3
    ∧ (freshBucket ⟨3, 60⟩ 5).refill_rate
        = (((3 : ℕ) : ℚ)) / (((60 : ℕ) : ℚ)) :=
  C8_confirmed ⟨3, 60⟩ ⟨3, 1 / 20, 2, 0⟩ 1 5 3 60 0 0 60
    (by norm_num) (by norm_num) (by norm_num) (by norm_num)

/-- Claim C9 (counterexample): with quota 3 and a 60-second window, the
checks at times 0, 0, 0 and 59 — all inside one window of length 60 —
are all admitted: continuous refill grants a fourth admission inside
the window, so it is not true that exactly `capacity` checks succeed
within every window of length `windowSeconds`. -/
theorem C9_counterexample :
    (runChecks ⟨3, 60⟩ "user:42" [(0, 1), (0, 1), (0, 1), (59, 1)] emptyStore).1
      = [true, true, true, true]
    ∧ (59 : ℚ) - 0 < 60 := by
  norm_num [runChecks, memory_rate_limit, memoryRateLimitBucket, refillTokens,
    freshBucket, emptyStore, min_def]

/-- Claim C9 (amended): back-to-back checks sharing one clock reading
admit exactly `capacity` requests from a full bucket and reject from
the `(capacity+1)`th on; concretely with quota 3 and window 60s, four
rapid calls for one key yield admitted, admitted, admitted, rejected,
and a fifth call 60 seconds later is admitted.  (Checks spread across
a window can exceed `capacity` admissions because of continuous
refill, per the counterexample.) -/
theorem C9_amended (b : TokenBucket) (t : ℚ) (c n : ℕ)
    (htok : b.tokens = (c : ℚ)) (hcap : b.capacity = (c : ℚ))
    (hlast : b.last_refill = t) :
    (sameTimeChecks b t n).1
      = List.replicate (min n c) true ++ List.replicate (n - c) false
    ∧ (runChecks ⟨3, 60⟩ "user:42"
        [(0, 1), (0, 1), (0, 1), (0, 1), (60, 1)] emptyStore).1
      = [true, true, true, false, true] := by
  constructor
  · obtain ⟨bc, br, bt, bl⟩ := b
    dsimp only at htok hcap hlast
    subst htok hcap hlast
    exact sameTimeChecks_spec _ _ _ n c (le_refl _)
  · norm_num [runChecks, memory_rate_limit, memoryRateLimitBucket, refillTokens,
      freshBucket, emptyStore, min_def]

/-- Witness for C9_amended: a full bucket with capacity 3 checked four
times at one instant admits three and rejects the fourth. -/
theorem C9_amended_witness :
    (sameTimeChecks ⟨((3 : ℕ) : ℚ), 1 / 20, ((3 : ℕ) : ℚ), 0⟩ 0 4).1
      = List.replicate (min 4 3) true ++ List.replicate (4 - 3) false
    ∧ (runChecks ⟨3, 60⟩ "user:42"
        [(0, 1), (0, 1), (0, 1), (0, 1), (60, 1)] emptyStore).1
      = [true, true, true, false, true] :=
  C9_amended ⟨((3 : ℕ) : ℚ), 1 / 20, ((3 : ℕ) : ℚ), 0⟩ 0 3 4 rfl rfl rfl

/-- Claim C1 (counterexample): the Redis path does not persist on
rejection.  With quota 3 / window 60 and the stored bucket `(0, 0)` for
key `u`, a cost-1 check at time 10 computes refreshed tokens 1/2,
rejects, and leaves the stored hash at `(0, 0)`: the partial refill
(1/2 at time 10) is lost. -/
theorem bucketKeyU : ("bucket:" ++ "u" : String) = "bucket:u" := rfl

theorem C1_counterexample :
    (redis_rate_limit ⟨3, 60⟩ c1Redis false "u" 1 10).map
        (fun p => (p.1, p.2 "bucket:u"))
      = Except.ok (false, some (0, 0))
    ∧ refillTokens 3 (3 / 60) 0 0 10 = 1 / 2
    ∧ (1 / 2 : ℚ) ≠ 0 := by
  norm_num [redis_rate_limit, c1Redis, refillTokens, Except.map, min_def,
    bucketKeyU]

/-- Claim C1 (amended): the in-memory backend persists the refreshed
bucket (with `last_refill` stamped to the call time) on every call,
admitted or rejected; the Redis backend persists updated state only on
admitted calls — a rejected call writes nothing back, so the partial
refill is not saved there. -/
theorem C1_amended (s : Settings) (store : String → Option TokenBucket)
    (redis : RedisStore) (key j : String) (req now : ℚ)
    (hrej : (redis_rate_limit s redis false key req now).map Prod.fst
      = Except.ok false) :
    (memory_rate_limit s store key req now).2 key
        = some (memoryRateLimitBucket ((store key).getD (freshBucket s now)) req now).2
    ∧ (memoryRateLimitBucket ((store key).getD (freshBucket s now)) req now).2.last_refill
        = now
    ∧ (redis_rate_limit s redis false key req now).map (fun p => p.2 j)
        = Except.ok (redis j) := by
  refine ⟨memory_rate_limit_key s store key req now,
    (memoryRateLimitBucket_spec _ req now).2.2.2.1, ?_⟩
  unfold redis_rate_limit at hrej ⊢
  simp only [Bool.false_eq_true, if_false] at hrej ⊢
  by_cases hadm : req ≤ refillTokens (s.RATE_LIMIT_REQUESTS : ℚ)
      ((s.RATE_LIMIT_REQUESTS : ℚ) / (s.RATE_LIMIT_WINDOW : ℚ))
      ((redis ("bucket:" ++ key)).getD ((s.RATE_LIMIT_REQUESTS : ℚ), now)).1
      ((redis ("bucket:" ++ key)).getD ((s.RATE_LIMIT_REQUESTS : ℚ), now)).2 now
  · rw [if_pos hadm] at hrej
    simp [Except.map] at hrej
  · rw [if_neg hadm]
    simp [Except.map]

/-- Witness for C1_amended at quota 3 / window 60, key `u`, cost 1,
time 10, an empty local store and the drained Redis bucket. -/
theorem C1_amended_witness :
    (memory_rate_limit ⟨3, 60⟩ emptyStore "u" 1 10).2 "u"
        = some (memoryRateLimitBucket ((emptyStore "u").getD (freshBucket ⟨3, 60⟩ 10)) 1 10).2
    ∧ (memoryRateLimitBucket ((emptyStore "u").getD (freshBucket ⟨3, 60⟩ 10)) 1 10).2.last_refill
        = 10
    ∧ (redis_rate_limit ⟨3, 60⟩ c1Redis false "u" 1 10).map (fun p => p.2 "bucket:u")
        = Except.ok (c1Redis "bucket:u") :=
  C1_amended ⟨3, 60⟩ emptyStore c1Redis "u" "bucket:u" 1 10
    (by norm_num [redis_rate_limit, c1Redis, refillTokens, Except.map, min_def,
      bucketKeyU])

/-- Claim C2 (counterexample): a Redis error during the call is not
degraded to the local backend — `is_allowed` has no handler, so with the
client connected and the backend raising, the call propagates the error
instead of returning a boolean. -/
theorem C2_counterexample :
    is_allowed ⟨3, 60⟩ connectedState true "u" 1 0 = Except.error () := rfl

/-- Claim C2 (amended): there is no per-call degradation.  When the
startup probe succeeded (`redis_client` set) and the shared backend
raises during the call, `is_allowed` propagates the exception to the
caller.  The in-memory backend is used only when the probe failed
(`redis_client = None`), in which case `is_allowed` always returns a
boolean decision without raising. -/
theorem C2_amended (s : Settings) (st : LimiterState) (failing : Bool)
    (key : String) (req now : ℚ) :
    (st.redis_connected = true →
      is_allowed s st true key req now = Except.error ())
    ∧ (st.redis_connected = false →
      (is_allowed s st failing key req now).isOk = true) := by
  constructor
  · intro h
    simp [is_allowed, h, redis_rate_limit]
  · intro h
    simp only [is_allowed, h, Bool.false_eq_true, if_false]
    rfl

/-- Witness for C2_amended: with a connected client and a raising
backend the call errors; with the probe failed it returns a decision. -/
theorem C2_amended_witness :
    is_allowed ⟨3, 60⟩ connectedState true "k" 1 0 = Except.error ()
    ∧ (is_allowed ⟨3, 60⟩ localState false "k" 1 0).isOk = true :=
  ⟨(C2_amended ⟨3, 60⟩ connectedState true "k" 1 0).1 rfl,
    (C2_amended ⟨3, 60⟩ localState false "k" 1 0).2 rfl⟩

/-- Claim C3 (confirmed): for every terminating upstream sequence —
`events` delivered, then either exhaustion or a raise — the outbound
generator emits exactly one terminal frame, it is the last frame, and
it is the `[DONE]` sentinel exactly on normal exhaustion and the single
`server_error` event exactly on a raise; the generator is a total
function, so no exception reaches the transport layer. -/
theorem C3_confirmed (events : List OutEvent) (err : Bool) :
    (generate_stream events err).countP isTerminalFrame = 1
    ∧ (generate_stream events err).getLast?
        = some (if err then Frame.errorEvent "Stream error occurred" "server_error"
            else Frame.done)
    ∧ (generate_stream events err).countP isDoneFrame = (if err then 0 else 1)
    ∧ (generate_stream events err).countP isErrorFrame = (if err then 1 else 0) := by
  cases err <;>
    simp [generate_stream, List.countP_append, List.countP_map,
      isTerminalFrame, isDoneFrame, isErrorFrame, List.getLast?_concat,
      Function.comp, List.countP_cons, List.countP_nil]

/-- The example upstream stream of the spec: content `"Hel"`, content
`"lo"`, then a chunk with an empty delta and finish reason `"stop"`. -/
def helloChunks : List StreamChunk :=
  [⟨"c1", "chat.completion.chunk", 1, "sonar", [⟨0, ⟨some "Hel"⟩, none⟩]⟩,
   ⟨"c2", "chat.completion.chunk", 1, "sonar", [⟨0, ⟨some "lo"⟩, none⟩]⟩,
   ⟨"c3", "chat.completion.chunk", 1, "sonar", [⟨0, ⟨none⟩, some "stop"⟩]⟩]

/-- Claim C5 (counterexample): a chunk whose first choice carries the
empty string as incremental content produces one content event — the
code tests `content is not None`, not non-emptiness, so "content event
iff non-empty content" fails. -/
theorem C5_counterexample :
    translateChunk ⟨"id0", "chat.completion.chunk", 0, "m", [⟨0, ⟨some ""⟩, none⟩]⟩
      = [⟨"id0", "chat.completion.chunk", 0, "m", 0, some "", none⟩]
    ∧ (⟨"id0", "chat.completion.chunk", 0, "m", 0, some "", none⟩ : OutEvent).delta_content
        = some "" := by
  constructor <;> rfl

/-- Claim C5 (amended): a chunk with a nonempty choice list yields one
content event iff its first choice's `delta.content` is non-null
(including the empty string), and one finish event iff its first
choice's finish reason is truthy (non-null and nonempty); on the spec's
example stream — content `"Hel"`, `"lo"`, then finish `"stop"` — the
relay emits two content events, one finish event and the `[DONE]`
sentinel: four outbound frames. -/
theorem C5_amended (c : StreamChunk) (ch : StreamChoice)
    (rest : List StreamChoice) (h : c.choices = ch :: rest) :
    ((translateChunk c).countP isContentEvent
        = if ch.delta.content.isSome then 1 else 0)
    ∧ ((translateChunk c).countP isFinishEvent
        = if truthyStr ch.finish_reason then 1 else 0)
    ∧ generate_stream (create_chat_completion_stream helloChunks) false
        = [Frame.data ⟨"c1", "chat.completion.chunk", 1, "sonar", 0, some "Hel", none⟩,
           Frame.data ⟨"c2", "chat.completion.chunk", 1, "sonar", 0, some "lo", none⟩,
           Frame.data ⟨"c3", "chat.completion.chunk", 1, "sonar", 0, none, some "stop"⟩,
           Frame.done] := by
  refine ⟨?_, ?_, rfl⟩ <;>
  · by_cases hb : truthyStr ch.finish_reason <;>
      cases hcc : ch.delta.content <;>
      simp [translateChunk, h, hcc, hb, isContentEvent, isFinishEvent,
        contentEvent, finishEvent, List.countP_append, List.countP_cons,
        List.countP_nil]

/-- Witness for C5_amended on a chunk carrying content `"x"` and no
finish reason. -/
theorem C5_amended_witness :
    ((translateChunk ⟨"w", "chat.completion.chunk", 2, "m", [⟨0, ⟨some "x"⟩, none⟩]⟩).countP
        isContentEvent
      = if (some "x" : Option String).isSome then 1 else 0)
    ∧ ((translateChunk ⟨"w", "chat.completion.chunk", 2, "m", [⟨0, ⟨some "x"⟩, none⟩]⟩).countP
        isFinishEvent
      = if truthyStr none then 1 else 0)
    ∧ generate_stream (create_chat_completion_stream helloChunks) false
        = [Frame.data ⟨"c1", "chat.completion.chunk", 1, "sonar", 0, some "Hel", none⟩,
           Frame.data ⟨"c2", "chat.completion.chunk", 1, "sonar", 0, some "lo", none⟩,
           Frame.data ⟨"c3", "chat.completion.chunk", 1, "sonar", 0, none, some "stop"⟩,
           Frame.done] :=
  C5_amended ⟨"w", "chat.completion.chunk", 2, "m", [⟨0, ⟨some "x"⟩, none⟩]⟩
    ⟨0, ⟨some "x"⟩, none⟩ [] rfl

/-- Claim C6 (counterexample): a request that sets temperature to 0.0
is not passed through — Python's `or` treats 0.0 as falsy, so the
default 0.7 is sent upstream instead. -/
theorem C6_counterexample :
    (buildUpstreamParams "gpt-4o-mini" 4096
        ⟨none, some 0, none, none, none, none⟩).temperature = 7 / 10
    ∧ (7 / 10 : ℚ) ≠ 0 := by
  constructor
  · norm_num [buildUpstreamParams, pyOrQ]
  · norm_num

/-- A request setting every parameter the witness exercises. -/
def c6Request : ChatRequestParams :=
  ⟨some "m", some (1 / 2), some 7, some (1 / 2), some 0, none⟩

/-- Claim C6 (amended): set parameters pass through exactly when they
are not Python-falsy: a non-empty model, nonzero temperature, nonzero
max_tokens and nonzero top_p are sent verbatim, and the two penalties
are sent verbatim for every set value (their default 0.0 coincides with
the only falsy rational).  Unset parameters fall back to the defaults,
and falsy set values (model `""`, temperature 0.0, max_tokens 0,
top_p 0.0) are also replaced by the defaults. -/
theorem C6_amended (dm : String) (mt : ℤ) (r : ChatRequestParams)
    (x y : ℚ) (sm : String) (n : ℤ)
    (hx : x ≠ 0) (hy : y ≠ 0) (hs : sm ≠ "") (hn : n ≠ 0)
    (htemp : r.temperature = some x) (hmodel : r.model = some sm)
    (hmax : r.max_tokens = some n) (htop : r.top_p = some y) :
    (buildUpstreamParams dm mt r).temperature = x
    ∧ (buildUpstreamParams dm mt r).model = sm
    ∧ (buildUpstreamParams dm mt r).max_tokens = n
    ∧ (buildUpstreamParams dm mt r).top_p = y
    ∧ (buildUpstreamParams dm mt r).frequency_penalty
        = r.frequency_penalty.getD 0
    ∧ (buildUpstreamParams dm mt r).presence_penalty
        = r.presence_penalty.getD 0
    ∧ buildUpstreamParams dm mt ⟨none, none, none, none, none, none⟩
        = ⟨dm, 7 / 10, mt, 1, 0, 0⟩
    ∧ buildUpstreamParams dm mt ⟨some "", some 0, some 0, some 0, some 0, some 0⟩
        = ⟨dm, 7 / 10, mt, 1, 0, 0⟩ := by
  refine ⟨?_, ?_, ?_, ?_, ?_, ?_, rfl, ?_⟩
  · simp [buildUpstreamParams, pyOrQ, htemp, hx]
  · simp [buildUpstreamParams, pyOrS, hmodel, hs]
  · simp [buildUpstreamParams, pyOrZ, hmax, hn]
  · simp [buildUpstreamParams, pyOrQ, htop, hy]
  · cases hf : r.frequency_penalty with
    | none => simp [buildUpstreamParams, pyOrQ, hf]
    | some q =>
      by_cases hq : q = 0 <;> simp [buildUpstreamParams, pyOrQ, hf, hq]
  · cases hp : r.presence_penalty with
    | none => simp [buildUpstreamParams, pyOrQ, hp]
    | some q =>
      by_cases hq : q = 0 <;> simp [buildUpstreamParams, pyOrQ, hp, hq]
  · simp [buildUpstreamParams, pyOrQ, pyOrZ, pyOrS]

/-- Witness for C6_amended on a request setting model `"m"`,
temperature 1/2, max_tokens 7, top_p 1/2, frequency penalty 0 and no
presence penalty. -/
theorem C6_amended_witness :
    (buildUpstreamParams "gpt-4o-mini" 4096 c6Request).temperature = 1 / 2
    ∧ (buildUpstreamParams "gpt-4o-mini" 4096 c6Request).model = "m"
    ∧ (buildUpstreamParams "gpt-4o-mini" 4096 c6Request).max_tokens = 7
    ∧ (buildUpstreamParams "gpt-4o-mini" 4096 c6Request).top_p = 1 / 2
    ∧ (buildUpstreamParams "gpt-4o-mini" 4096 c6Request).frequency_penalty
        = c6Request.frequency_penalty.getD 0
    ∧ (buildUpstreamParams "gpt-4o-mini" 4096 c6Request).presence_penalty
        = c6Request.presence_penalty.getD 0
    ∧ buildUpstreamParams "gpt-4o-mini" 4096 ⟨none, none, none, none, none, none⟩
        = ⟨"gpt-4o-mini", 7 / 10, 4096, 1, 0, 0⟩
    ∧ buildUpstreamParams "gpt-4o-mini" 4096
        ⟨some "", some 0, some 0, some 0, some 0, some 0⟩
        = ⟨"gpt-4o-mini", 7 / 10, 4096, 1, 0, 0⟩ :=
  C6_amended "gpt-4o-mini" 4096 c6Request (1 / 2) (1 / 2) "m" 7
    (by norm_num) (by norm_num) (by simp) (by norm_num) rfl rfl rfl rfl

/-- Claim C10 (confirmed): for a request whose path is exactly one of
`/api/v1/health`, `/api/v1/auth/login` or `/api/v1/auth/register`, the
middleware forwards it unconditionally: the limiter is never consulted
(the call succeeds even with the Redis backend raising), no 429 can be
produced, and the limiter state — both stores — is returned unchanged. -/
theorem C10_confirmed (s : Settings) (st : LimiterState) (failing : Bool)
    (path : String) (host : Option String) (now : ℚ)
    (h : path ∈ exemptPaths) :
    rateLimitMiddleware s st failing path host now
      = Except.ok (MiddlewareResult.forwarded, st) := by
  unfold rateLimitMiddleware
  rw [if_pos h]

/-- Witness for C10_confirmed: the health path passes through with a
raising shared backend and the state untouched. -/
theorem C10_confirmed_witness :
    rateLimitMiddleware ⟨3, 60⟩ connectedState true "/api/v1/health" none 0
      = Except.ok (MiddlewareResult.forwarded, connectedState) :=
  C10_confirmed ⟨3, 60⟩ connectedState true "/api/v1/health" none 0
    (by simp [exemptPaths])

end Relay
